import Mathlib

/-!
Verification of the CatColab live multi-document model against its source.

The development shallowly embeds:

* the frontend model judgments and the `catlogModel` / `validateModel`
  functions (`packages/frontend/src/model/types.ts`, concatenated into
  `src/packages/frontend/src/App.tsx`);
* the analysis document constructor (`packages/frontend/src/analysis/document.ts`);
* the analysis page loader and the analysis cell editor's `validatedModel`
  memo (`packages/frontend/src/document/analysis_document_editor.tsx`);
* the `makeSimulationData` function of the Decapodes analysis component;
* the route definitions with their UUID match filter (`App.tsx`);
* the Julia decapodes service: `Theory`, `add_to_theory!`, `add_to_pode!`
  and the `Decapode` builder
  (`packages/algjulia-service/src/decapodes-service/decapodes.jl`).

External capabilities that are not part of the repository sources
(`catlog-wasm`'s `DblModel`, the notebook module's `newNotebook`,
`enlivenModelDocument`, the `uuid` package's `validate`, solid-router's
match-filter semantics) are modelled from the specification or from the
external package's documented behaviour; each such definition says so in
its doc comment.
-/

/-! ## Frontend data model (packages/frontend/src/model/types.ts) -/

/-- Embeds the `catlog-wasm` type `ObType` as it appears on the wire: a tagged
value; the validator never inspects these fields, so the basic
`{tag, content}` form suffices. -/
structure ObType where
  tag : String
  content : String
deriving DecidableEq

/-- Embeds the `catlog-wasm` type `MorType`, in the same tagged form. -/
structure MorType where
  tag : String
  content : String
deriving DecidableEq

/-- Embeds the `catlog-wasm` type `Ob`: a reference to an object, whose
`content` is the object's id in the basic case. -/
structure Ob where
  tag : String
  content : String
deriving DecidableEq

/-- Embeds `ObjectDecl` from `model/types.ts`: declaration of an object in a
model (`tag: "object"` is the constructor of `ModelJudgment` below). -/
structure ObjectDecl where
  id : String
  name : String
  obType : ObType
deriving DecidableEq

/-- Embeds `MorphismDecl` from `model/types.ts`: declaration of a morphism in
a model; `dom`/`cod` are nullable object references. -/
structure MorphismDecl where
  id : String
  name : String
  morType : MorType
  dom : Option Ob
  cod : Option Ob
deriving DecidableEq

/-- Embeds `ModelJudgment = ObjectDecl | MorphismDecl`, the tagged union
discriminated by the `tag` field in the source. -/
inductive ModelJudgment
  | object (decl : ObjectDecl)
  | morphism (decl : MorphismDecl)
deriving DecidableEq

/-- Embeds the theory handle used by `validateModel`: only its `kind` field is
consulted (`theory.kind !== "Discrete"`). -/
structure DblTheory where
  kind : String
deriving DecidableEq

/-- Modelled from the spec: a structural error reported by the theory's
validator, identifying the offending judgment's id and the kind of
violation (Scenario B of the spec reports `{judgment, kind:"dangling-cod"}`). -/
structure ModelError where
  judgment : String
  kind : String
deriving DecidableEq

/-- Modelled from the spec: `ModelValidationResult` from `catlog-wasm`
(not under `src/`): `Ok` when every judgment satisfies the structural rules,
else `Err(errors)` where each error identifies the offending judgment. -/
inductive ModelValidationResult
  | ok
  | err (errors : List ModelError)
deriving DecidableEq

/-- Modelled from the spec: the `catlog-wasm` class `DblModel` (not under
`src/`), as observed through `addOb`, `addMor` and `validate`: a model over a
theory holding the added object and morphism declarations in insertion
order. -/
structure DblModel where
  theory : DblTheory
  obs : List ObjectDecl
  mors : List MorphismDecl
deriving DecidableEq

/-- Modelled from the spec: `new DblModel(theory)` starts from an empty model
over the theory. -/
def DblModel.new (theory : DblTheory) : DblModel :=
  { theory := theory, obs := [], mors := [] }

/-- Modelled from the spec: `DblModel.addOb` records the object declaration;
judgments are "added first-come", so insertion order is kept. -/
def DblModel.addOb (model : DblModel) (decl : ObjectDecl) : DblModel :=
  { model with obs := model.obs ++ [decl] }

/-- Modelled from the spec: `DblModel.addMor` records the morphism
declaration; a morphism with a dangling reference "is retained in the
notebook but reported as invalid — it is never silently dropped", so it is
stored unconditionally. -/
def DblModel.addMor (model : DblModel) (decl : MorphismDecl) : DblModel :=
  { model with mors := model.mors ++ [decl] }

/-- Resolution of a nullable object reference against a list of object ids;
a missing (`none`) reference does not resolve. -/
def resolvesTo (ids : List String) : Option Ob → Bool
  | some ob => ids.contains ob.content
  | none => false

/-- Modelled from the spec: the structural check of one morphism declaration,
whose dom or cod "references a nonexistent object id" yields an error naming
that judgment's id (spec Scenario B uses kinds such as `"dangling-cod"`). -/
def morError (ids : List String) (mor : MorphismDecl) : Option ModelError :=
  if resolvesTo ids mor.dom then
    if resolvesTo ids mor.cod then none
    else some { judgment := mor.id, kind := "dangling-cod" }
  else some { judgment := mor.id, kind := "dangling-dom" }

/-- Modelled from the spec: `DblModel.validate` from `catlog-wasm` (not under
`src/`): `Ok` when no morphism has a dangling dom or cod among the model's
objects, else `Err` listing an error per offending judgment. -/
def DblModel.validate (model : DblModel) : ModelValidationResult :=
  let ids := model.obs.map ObjectDecl.id
  let errors := model.mors.filterMap (morError ids)
  if errors.isEmpty then .ok else .err errors

/-- The loop body of `catlogModel`: dispatch on the judgment's tag, adding
objects via `addOb` and morphisms via `addMor`. -/
def addJudgment (model : DblModel) (judgment : ModelJudgment) : DblModel :=
  match judgment with
  | .object decl => model.addOb decl
  | .morphism decl => model.addMor decl

/-- Embeds `catlogModel` from `model/types.ts`: constructs a `catlog` model
by folding the judgments strictly in sequence order over a fresh model. -/
def catlogModel (theory : DblTheory) (judgments : List ModelJudgment) : DblModel :=
  judgments.foldl addJudgment (DblModel.new theory)

/-- Embeds `ValidatedModel` from `model/types.ts`: the built model together
with its validation result. -/
structure ValidatedModel where
  model : DblModel
  result : ModelValidationResult
deriving DecidableEq

/-- Embeds `validateModel` from `model/types.ts`: returns `undefined`
(here `none`) when the theory's kind is not `"Discrete"`, otherwise builds
the model and validates it. -/
def validateModel (theory : DblTheory) (judgments : List ModelJudgment) :
    Option ValidatedModel :=
  if theory.kind != "Discrete" then none
  else
    let model := catlogModel theory judgments
    some { model := model, result := model.validate }

/-! ### Specification-side helpers for the validation claims -/

/-- The object declarations of a judgment sequence, in declaration order. -/
def objectDecls (judgments : List ModelJudgment) : List ObjectDecl :=
  judgments.filterMap fun j =>
    match j with
    | .object decl => some decl
    | .morphism _ => none

/-- The morphism declarations of a judgment sequence, in declaration order. -/
def morphismDecls (judgments : List ModelJudgment) : List MorphismDecl :=
  judgments.filterMap fun j =>
    match j with
    | .object _ => none
    | .morphism decl => some decl

/-- The ids of the declared objects, in declaration order. -/
def objectIds (judgments : List ModelJudgment) : List String :=
  (objectDecls judgments).map ObjectDecl.id

/-- States the claim's hypothesis: scanning the sequence in order, every
morphism's dom and cod resolve to an object declared strictly earlier
(`seen` collects the ids of previously declared objects). -/
def resolvesSoFar (seen : List String) : List ModelJudgment → Bool
  | [] => true
  | .object decl :: rest => resolvesSoFar (decl.id :: seen) rest
  | .morphism decl :: rest =>
      resolvesTo seen decl.dom && resolvesTo seen decl.cod && resolvesSoFar seen rest

/-! ## Notebook and analysis documents (packages/frontend/src/analysis/document.ts) -/

/-- Modelled from the spec: `Cell<T>` of the notebook module (not under
`src/`), a "variant over {formal(id, content: T), rich-text(id, content:
string), stem(id)}". -/
inductive Cell (T : Type)
  | formal (id : String) (content : T)
  | richText (id : String) (content : String)
  | stem (id : String)
deriving DecidableEq

/-- Modelled from the spec: `Notebook<T>` of the notebook module (not under
`src/`), an ordered sequence of cells. -/
structure Notebook (T : Type) where
  cells : List (Cell T)
deriving DecidableEq

/-- Modelled from the spec: `newNotebook` of the notebook module (not under
`src/`): "a Notebook is created empty when its owning document is created". -/
def newNotebook {T : Type} : Notebook T :=
  { cells := [] }

/-- Embeds `ExternRef` as used by `analysis/document.ts`: the wire shape is
`{tag:"extern-ref", refId: UUID-string, taxon: string}`. -/
structure ExternRef where
  tag : String
  refId : String
  taxon : String
deriving DecidableEq

/-- Embeds `ModelAnalysis` (the content of a formal analysis cell) as it is
constructed in `modelAnalysisCellConstructors`: an analysis id together with
its content; the content's own shape is irrelevant here, so it is kept as an
opaque string. -/
structure ModelAnalysis where
  id : String
  content : String
deriving DecidableEq

/-- Embeds `AnalysisDocument` from `analysis/document.ts`: a document of type
`"analysis"` with a name, a reference to the analyzed model, and a notebook of
analyses. -/
structure AnalysisDocument where
  type : String
  name : String
  modelRef : ExternRef
  notebook : Notebook ModelAnalysis
deriving DecidableEq

/-- Embeds `newAnalysisDocument` from `analysis/document.ts`: creates an empty
analysis of the model with the given ref id. -/
def newAnalysisDocument (modelRefId : String) : AnalysisDocument :=
  { name := ""
    type := "analysis"
    modelRef := { tag := "extern-ref", refId := modelRefId, taxon := "model" }
    notebook := newNotebook }

/-! ## Analysis page loading (packages/frontend/src/document/analysis_document_editor.tsx) -/

/-- A retrieved document as the analysis page sees it before any type check:
its declared `type` discriminator, its name, and (for analysis documents) the
ref id stored in `modelRef.__extern__.refId`.  Fields a given code path does
not read are simply ignored, as with a JSON object. -/
structure RawDoc where
  type : String
  name : String
  modelRefId : String
deriving DecidableEq

/-- The live wrapper the resolver produces for a model document. -/
structure LiveModelDoc where
  refId : String
  doc : RawDoc
deriving DecidableEq

/-- Embeds `LiveAnalysisDocument` from `analysis_document_editor.tsx`: the ref
id, the analysis document, and the live wrapper of its embedded model. -/
structure LiveAnalysisDoc where
  refId : String
  doc : RawDoc
  liveModel : LiveModelDoc
deriving DecidableEq

/-- Errors aborting a document load: the failed `invariant` of
`AnalysisPage` (an unexpected type discriminator), or the spec's
`ReferenceError` (resolved document's type differs from the expected
taxon). -/
inductive LoadError
  | invariantViolation (message : String)
  | referenceError (expected : String) (actual : String)
deriving DecidableEq

/-- Modelled from the spec: `enlivenModelDocument` (module
`document/model_document_editor`, not under `src/`); the Reference Resolver
"verifies the returned document's declared type matches `taxon`, and wraps
the result" — resolving an `ExternRef{taxon:"model"}` therefore fails with a
`ReferenceError` unless the document's type is `"model"`. -/
def enlivenModelDocument (refId : String) (doc : RawDoc) :
    Except LoadError LiveModelDoc :=
  if doc.type == "model" then .ok { refId := refId, doc := doc }
  else .error (.referenceError "model" doc.type)

/-- Embeds the resource fetcher of `AnalysisPage`: with `analysisDoc` the
document retrieved for the route's ref and `modelDoc` the document retrieved
for `analysisDoc.modelRefId`, it checks the `invariant` that the first has
type `"analysis"` and then enlivens the second, producing the live analysis
document. -/
def analysisPageLoad (refId : String) (analysisDoc : RawDoc) (modelDoc : RawDoc) :
    Except LoadError LiveAnalysisDoc :=
  if analysisDoc.type == "analysis" then
    match enlivenModelDocument analysisDoc.modelRefId modelDoc with
    | .ok liveModel => .ok { refId := refId, doc := analysisDoc, liveModel := liveModel }
    | .error e => .error e
  else
    .error (.invariantViolation ("Expected analysis document, got type: " ++ analysisDoc.type))

/-! ## Validation-gated computations (analysis cell editor and `makeSimulationData`) -/

/-- Modelled from the spec: `ValidationResult` (module
`document/model_document_editor`, not under `src/`); the spec's validation
state machine has states Unvalidated, Valid and Invalid, and the usage in
`ModelAnalysisCellEditor` shows the valid state carries tag `"validated"`
with the `catlog` model as its `value`. -/
inductive ValidationResult
  | validated (value : DblModel)
  | invalid (errors : List ModelError)
  | unvalidated
deriving DecidableEq

/-- Embeds the `validatedModel` memo of `ModelAnalysisCellEditor`: the value
of the validation result when its tag is `"validated"`, else `null`. -/
def validatedModelMemo (res : ValidationResult) : Option DblModel :=
  match res with
  | .validated value => some value
  | _ => none

/-- Modelled from the spec: a diagram judgment produced by
`fromCatlogDiagram`; its internal structure is irrelevant to the claims, so
only an id and a display name are kept. -/
structure DiagramJudgment where
  id : String
  name : String
deriving DecidableEq

/-- Modelled from the spec: the `catlog` representation of a validated
diagram, observed only through the judgments `fromCatlogDiagram` extracts
from it. -/
structure CatlogDiagram where
  judgments : List DiagramJudgment
deriving DecidableEq

/-- Embeds the shape of `validatedDiagram().result`: the `catlog` result with
tag `"Ok"` or `"Err"`. -/
inductive DiagramValidationResult
  | ok
  | err (errors : List String)
deriving DecidableEq

/-- Embeds `ValidatedDiagram`: the elaborated diagram with its validation
result. -/
structure ValidatedDiagram where
  diagram : CatlogDiagram
  result : DiagramValidationResult
deriving DecidableEq

/-- Modelled from the spec: `fromCatlogDiagram` (module `../../diagram`, not
under `src/`) converts the validated diagram back into judgments, resolving
each object's display name through the object index (consumers "must always
read through the index"). -/
def fromCatlogDiagram (d : CatlogDiagram) (idToName : String → Option String) :
    List DiagramJudgment :=
  d.judgments.map fun j => { j with name := (idToName j.id).getD j.name }

/-- Embeds the slice of `LiveDiagramDocument` that `makeSimulationData`
reads: the validated diagram (possibly not yet computed), the embedded
model's formal judgments, and the object index. -/
structure LiveDiagramDocument where
  validatedDiagram : Option ValidatedDiagram
  liveModelFormalJudgments : List ModelJudgment
  objectIndexMap : String → Option String

/-- Embeds `DecapodesContent` from the Decapodes analysis component: Jupyter
settings plus scalar values and plot-variable flags (records embedded as
ordered key/value lists). -/
structure DecapodesContent where
  baseUrl : Option String
  token : Option String
  scalars : List (String × Int)
  plotVariables : List (String × Bool)

/-- Embeds `SimulationData`: the data sent to the Julia kernel. -/
structure SimulationData where
  diagram : List DiagramJudgment
  model : List ModelJudgment
  scalars : List (String × Int)
  plotVariables : List String

/-- Embeds `makeSimulationData` from the Decapodes analysis component:
returns `undefined` (here `none`) unless the live diagram's validation result
has tag `"Ok"`, and otherwise assembles the simulation data. -/
def makeSimulationData (liveDiagram : LiveDiagramDocument) (content : DecapodesContent) :
    Option SimulationData :=
  match liveDiagram.validatedDiagram with
  | some validatedDiagram =>
    match validatedDiagram.result with
    | .ok =>
      some { diagram := fromCatlogDiagram validatedDiagram.diagram liveDiagram.objectIndexMap
             model := liveDiagram.liveModelFormalJudgments
             scalars := content.scalars
             plotVariables := (content.plotVariables.filter fun kv => kv.2).map fun kv => kv.1 }
    | .err _ => none
  | none => none

/-! ## Document routes and the UUID match filter (App.tsx) -/

/-- Tests membership of a character in the lowercase hexadecimal alphabet. -/
def isHexDigit (c : Char) : Bool :=
  (decide ('0' ≤ c) && decide (c ≤ '9')) || (decide ('a' ≤ c) && decide (c ≤ 'f'))

/-- Embeds `uuid.validate` of the external `uuid` npm package, the function
`refIsUUIDFilter` applies to the `:ref` route parameter.  The package tests
the string (case-insensitively) against its UUID regular expression:
hyphenated `8-4-4-4-12` hexadecimal groups with a version digit and an
RFC-variant digit, plus the nil and max UUIDs. -/
def uuidValidate (s : String) : Bool :=
  let cs := s.toList.map Char.toLower
  if cs = "00000000-0000-0000-0000-000000000000".toList then true
  else if cs = "ffffffff-ffff-ffff-ffff-ffffffffffff".toList then true
  else
    cs.length == 36 &&
    (List.range 36).all fun i =>
      let c := cs.getD i ' '
      if i == 8 || i == 13 || i == 18 || i == 23 then c == '-'
      else if i == 14 then decide ('1' ≤ c) && decide (c ≤ '8')
      else if i == 19 then c == '8' || c == '9' || c == 'a' || c == 'b'
      else isHexDigit c

/-- Embeds `refIsUUIDFilter` from `App.tsx`: the match-filter record
`{ref: (ref) => uuid.validate(ref)}`, as an association of parameter names to
predicates. -/
def refIsUUIDFilter : List (String × (String → Bool)) :=
  [("ref", uuidValidate)]

/-- A segment of a route path pattern: a literal segment or a named
parameter. -/
inductive RouteSegment
  | literal (s : String)
  | param (name : String)

/-- Modelled from the documented behaviour of solid-router (external
dependency): a pattern segment matches a path segment when a literal is equal
to it, and a parameter accepts it when the parameter's match filter (if any)
returns true. -/
def segMatches (filters : List (String × (String → Bool))) :
    RouteSegment → String → Bool
  | .literal l, seg => seg == l
  | .param name, seg =>
    match filters.find? fun kv => kv.1 == name with
    | some kv => kv.2 seg
    | none => true

/-- Modelled from the documented behaviour of solid-router: a route matches a
path when the segments align one-to-one and every segment matches. -/
def routeMatches (pattern : List RouteSegment)
    (filters : List (String × (String → Bool))) (path : List String) : Bool :=
  pattern.length == path.length &&
    (List.zip pattern path).all fun pair => segMatches filters pair.1 pair.2

/-- Embeds the route `path: "/model/:ref"` from `App.tsx`. -/
def modelRoutePattern : List RouteSegment :=
  [.literal "model", .param "ref"]

/-- Embeds the route `path: "/analysis/:ref"` from `App.tsx`. -/
def analysisRoutePattern : List RouteSegment :=
  [.literal "analysis", .param "ref"]

/-- A path matches a document route when it matches `/model/:ref` or
`/analysis/:ref`, both guarded by `refIsUUIDFilter`. -/
def documentRouteMatches (path : List String) : Bool :=
  routeMatches modelRoutePattern refIsUUIDFilter path ||
    routeMatches analysisRoutePattern refIsUUIDFilter path

/-! ## Decimal rendering of naturals

The Julia service names anonymous variables `Symbol("•$(nc[1])")`; the
interpolation `$(n)` renders the counter in standard decimal notation
(most significant digit first).  `natDecimal` embeds that rendering with a
fuel-structured recursion so that it reduces by `rfl`/`decide`. -/

/-- Decimal digits of `n` rendered most-significant first, with enough fuel;
`natDecimalCore (n+1) n` renders `n` exactly. -/
def natDecimalCore : Nat → Nat → List Char
  | 0, _ => []
  | fuel + 1, n =>
    if n < 10 then [Nat.digitChar n]
    else natDecimalCore fuel (n / 10) ++ [Nat.digitChar (n % 10)]

/-- Standard decimal rendering of a natural number, as produced by Julia's
string interpolation of a nonnegative integer. -/
def natDecimal (n : Nat) : String :=
  { data := natDecimalCore (n + 1) n }

/-- The name `•n` given to the `n`-th anonymous variable
(`Symbol("•$(nc[1])")` in the source). -/
def anonName (n : Nat) : String :=
  "•" ++ natDecimal n

/-! ## Julia decapodes service (packages/algjulia-service/src/decapodes-service/decapodes.jl)

Julia `Symbol`s are represented as strings, Julia `Dict`s as association
lists whose lookup takes the most recent binding, and thrown exceptions as
the error side of `Except`. -/

/-- Exceptions thrown by the Julia service: `ImplError(name)` ("name not
implemented") and a `KeyError` from indexing a `Dict` at a missing key. -/
inductive JuliaError
  | implError (name : String)
  | keyError (key : String)
deriving DecidableEq

/-- Julia `dict[key] = value` (also `push!(dict, key => value)`): the new
binding shadows any older one. -/
def dictSet {α : Type} (d : List (String × α)) (key : String) (value : α) :
    List (String × α) :=
  (key, value) :: d

/-- Julia `get(dict, key, nothing)`-style lookup: the most recent binding. -/
def dictGet {α : Type} (d : List (String × α)) (key : String) : Option α :=
  (d.find? fun kv => kv.1 == key).map fun kv => kv.2

/-- Julia `haskey(dict, key)`. -/
def dictHasKey {α : Type} (d : List (String × α)) (key : String) : Bool :=
  d.any fun kv => kv.1 == key

/-- A cell of the JSON payload (`JSON3.Object`), with the fields the service
reads: `tag`, `id`, `name`, and the `:content` fields of `over`, `dom` and
`cod` (the service always reads these through `[:content]`, so the contents
are stored directly).  A field a given code path does not read is simply
ignored, as with a JSON object. -/
structure JsonCell where
  tag : String
  id : String
  name : String
  over : String
  dom : String
  cod : String
deriving DecidableEq

/-- Embeds `HomData`: the dom and cod recorded for a morphism's theory
element. -/
structure HomData where
  dom : String
  cod : String
deriving DecidableEq

/-- Embeds `TheoryElement`: the decapode name of the element and, for homs,
its `HomData`. -/
structure TheoryElement where
  name : String
  val : Option HomData
deriving DecidableEq

/-- Embeds the Julia `Theory` struct: a dictionary from CatColab ids to
theory elements. -/
structure Theory where
  data : List (String × TheoryElement)
deriving DecidableEq

/-- Julia `lowercase(name)`: every character mapped to its lowercase form
(written over the character list so that it evaluates by reduction). -/
def lowercaseString (s : String) : String :=
  { data := s.data.map Char.toLower }

/-- Julia `replace(name, " " => "")`: every space character removed (written
over the character list so that it evaluates by reduction). -/
def removeSpaces (s : String) : String :=
  { data := s.data.filter fun c => c != ' ' }

/-- Embeds `to_decapode_theory(::Val{:Ob}, name)`: maps a CatColab object
type name (lowercased) to its decapode symbol, throwing `ImplError` on
anything else. -/
def to_decapode_theory_ob (name : String) : Except JuliaError String :=
  match lowercaseString name with
  | "0-form" => .ok "Form0"
  | "1-form" => .ok "Form1"
  | "2-form" => .ok "Form2"
  | "primal 0-form" => .ok "Form0"
  | "primal 1-form" => .ok "Form1"
  | "primal 2-form" => .ok "Form2"
  | "dual 0-form" => .ok "DualForm0"
  | "dual 1-form" => .ok "DualForm1"
  | "dual 2-form" => .ok "DualForm2"
  | x => .error (.implError x)

/-- Embeds `to_decapode_theory(::Val{:Hom}, name)`: maps a CatColab morphism
type name (spaces removed) to its decapode symbol, throwing `ImplError` on
anything else. -/
def to_decapode_theory_hom (name : String) : Except JuliaError String :=
  match removeSpaces name with
  | "∂t" => .ok "∂ₜ"
  | "∂ₜ" => .ok "∂ₜ"
  | "Δ" => .ok "Δ"
  | "Δ⁻¹" => .ok "Δ⁻¹"
  | "d" => .ok "d₀"
  | "d*" => .ok "dual_d₁"
  | "d̃₁" => .ok "dual_d₁"
  | "⋆" => .ok "⋆₁"
  | "⋆⁻¹" => .ok "⋆₀⁻¹"
  | "⋆₀⁻¹" => .ok "⋆₀⁻¹"
  | "★" => .ok "⋆₁"
  | "★⁻¹" => .ok "⋆₀⁻¹"
  | "diffusivity" => .ok "diffusivity"
  | "d₀" => .ok "d₀"
  | "d12" => .ok "d₁"
  | "⋆1" => .ok "⋆₁"
  | "⋆2" => .ok "⋆₂"
  | "♭♯" => .ok "♭♯"
  | "lamb" => .ok "dpsw"
  | "-" => .ok "neg"
  | x => .error (.implError x)

/-- Embeds `add_to_theory!(theory, content, Val(:Ob))`: binds the cell's id
to a theory element named after its converted object type. -/
def add_to_theory_ob (theory : Theory) (content : JsonCell) :
    Except JuliaError Theory := do
  let n ← to_decapode_theory_ob content.name
  .ok { data := dictSet theory.data content.id { name := n, val := none } }

/-- Embeds `add_to_theory!(theory, content, Val(:Hom))`: binds the cell's id
to a theory element named after its converted morphism type, carrying the
`HomData` of the cell's dom and cod contents. -/
def add_to_theory_hom (theory : Theory) (content : JsonCell) :
    Except JuliaError Theory := do
  let n ← to_decapode_theory_hom content.name
  .ok { data := dictSet theory.data content.id
          { name := n, val := some { dom := content.dom, cod := content.cod } } }

/-- One step of the `Theory(model)` constructor: dispatch on the cell's tag
(`IsObject` / `IsMorphism` active patterns), throwing `ImplError` on any
other tag. -/
def theoryStep (theory : Theory) (cell : JsonCell) : Except JuliaError Theory :=
  if cell.tag == "object" then add_to_theory_ob theory cell
  else if cell.tag == "morphism" then add_to_theory_hom theory cell
  else .error (.implError cell.tag)

/-- Embeds the `Theory(model::AbstractVector{JSON3.Object})` constructor:
folds `add_to_theory!` over the model's cells, starting from the empty
theory. -/
def Theory.ofModel (model : List JsonCell) : Except JuliaError Theory :=
  model.foldlM theoryStep { data := [] }

/-- A row of the decapode's `Var` table: the variable's name and type. -/
structure VarPart where
  name : String
  type : String
deriving DecidableEq

/-- A row of the decapode's `Op1` table: source and target variable ids and
the operator symbol. -/
structure Op1Part where
  src : Nat
  tgt : Nat
  op1 : String
deriving DecidableEq

/-- A row of the decapode's `TVar` table: the included variable id. -/
structure TVarPart where
  incl : Nat
deriving DecidableEq

/-- Embeds the `SummationDecapode` ACSet through the tables the service
writes: `Var`, `Op1` and `TVar`; `add_part!` appends a row, and the row's id
is its 1-based position. -/
structure SummationDecapode where
  vars : List VarPart
  op1s : List Op1Part
  tvars : List TVarPart
deriving DecidableEq

/-- The mutable state threaded through `Decapode`'s loop: the decapode `d`,
the UUID-to-ACSet-id dictionary `vars`, the anonymous-variable counter
`nc[1]`, and the `anons` dictionary from operator symbols to the scalar each
closure multiplies by. -/
structure BuildState where
  pode : SummationDecapode
  vars : List (String × Nat)
  nc : Nat
  anons : List (String × Int)
deriving DecidableEq

/-- Embeds `add_to_pode!(d, vars, theory, content, nc, Val(:Ob))`: looks the
cell's `over` content up in the theory (a `KeyError` on a missing id), names
the variable `•(nc+1)` after incrementing the counter when the cell's name is
empty and uses the name verbatim otherwise, appends the `Var` row, and binds
the cell's id to the new row id. -/
def add_to_pode_ob (st : BuildState) (theory : Theory) (content : JsonCell) :
    Except JuliaError BuildState :=
  match dictGet theory.data content.over with
  | none => .error (.keyError content.over)
  | some theoryElem =>
    let pair : Nat × String :=
      if content.name == "" then (st.nc + 1, anonName (st.nc + 1))
      else (st.nc, content.name)
    let id := st.pode.vars.length + 1
    .ok { st with
          pode := { st.pode with
                    vars := st.pode.vars ++ [{ name := pair.2, type := theoryElem.name }] }
          vars := dictSet st.vars content.id id
          nc := pair.1 }

/-- Embeds `add_to_pode!(d, vars, theory, content, scalars, anons, Val(:Hom))`:
when both the dom and cod contents are bound in `vars`, appends the `Op1`
row (throwing `KeyError` if the `over` content is missing from the theory),
appends a `TVar` row when the operator is `∂ₜ`, and records the scalar
closure when a scalar is supplied for the cell's `over` content; when the dom
or cod is not bound, the decapode is returned unchanged — no row is added and
no error is raised. -/
def add_to_pode_hom (st : BuildState) (theory : Theory)
    (scalars : List (String × Int)) (content : JsonCell) :
    Except JuliaError BuildState :=
  if dictHasKey st.vars content.dom && dictHasKey st.vars content.cod then
    match dictGet theory.data content.over with
    | none => .error (.keyError content.over)
    | some theoryElem =>
      let op1 := theoryElem.name
      let src := (dictGet st.vars content.dom).getD 0
      let tgt := (dictGet st.vars content.cod).getD 0
      let pode1 := { st.pode with op1s := st.pode.op1s ++ [{ src := src, tgt := tgt, op1 := op1 }] }
      let pode2 :=
        if op1 == "∂ₜ" then { pode1 with tvars := pode1.tvars ++ [{ incl := tgt }] }
        else pode1
      let anons1 :=
        if !scalars.isEmpty && dictHasKey scalars content.over then
          match dictGet scalars content.over with
          | some value => dictSet st.anons op1 value
          | none => st.anons
        else st.anons
      .ok { st with pode := pode2, anons := anons1 }
  else
    .ok st

/-- One step of the `Decapode` builder's loop: dispatch on the cell's tag,
throwing `ImplError` on any other tag. -/
def decapodeStep (theory : Theory) (scalars : List (String × Int))
    (st : BuildState) (cell : JsonCell) : Except JuliaError BuildState :=
  if cell.tag == "object" then add_to_pode_ob st theory cell
  else if cell.tag == "morphism" then add_to_pode_hom st theory scalars cell
  else .error (.implError cell.tag)

/-- The initial state of the builder: an empty decapode, empty dictionaries,
and the counter at zero. -/
def initBuildState : BuildState :=
  { pode := { vars := [], op1s := [], tvars := [] }, vars := [], nc := 0, anons := [] }

/-- Embeds the `Decapode(diagram, theory; scalars)` builder: folds
`add_to_pode!` over the diagram's cells. -/
def Decapode (diagram : List JsonCell) (theory : Theory)
    (scalars : List (String × Int)) : Except JuliaError BuildState :=
  diagram.foldlM (decapodeStep theory scalars) initBuildState

/-! ### Specification-side helpers for the naming claim -/

/-- Follows the claim's words: the sequence of variable names the builder
assigns, scanning the cells in order with the anonymous counter at `nc` — an
object cell with an empty name takes the fresh anonymous name `•(nc+1)`
(incrementing the counter), an object cell with a non-empty name keeps that
name verbatim, and other cells assign no name. -/
def specVarNames (nc : Nat) : List JsonCell → List String
  | [] => []
  | c :: cs =>
    if c.tag == "object" then
      if c.name == "" then anonName (nc + 1) :: specVarNames (nc + 1) cs
      else c.name :: specVarNames nc cs
    else specVarNames nc cs

/-- Follows the claim's words: the names assigned to the anonymous object
cells alone, under the same counter discipline as `specVarNames`. -/
def specAnonNames (nc : Nat) : List JsonCell → List String
  | [] => []
  | c :: cs =>
    if c.tag == "object" && c.name == "" then
      anonName (nc + 1) :: specAnonNames (nc + 1) cs
    else specAnonNames nc cs

/-! # Theorems -/

/-! ## Decimal rendering: helper lemmas -/

lemma natDecimalCore_ne_nil (fuel n : Nat) (h : 0 < fuel) :
    natDecimalCore fuel n ≠ [] := by
  match fuel with
  | fuel + 1 =>
    simp only [natDecimalCore]
    by_cases hn : n < 10
    · simp [hn]
    · simp [hn]

lemma digitChar_inj_lt : ∀ m < 10, ∀ n < 10, Nat.digitChar m = Nat.digitChar n → m = n := by
  decide

lemma natDecimalCore_fuel_irrel : ∀ fuel fuel2 n : Nat, n < fuel → n < fuel2 →
    natDecimalCore fuel n = natDecimalCore fuel2 n := by
  intro fuel
  induction fuel with
  | zero => intro fuel2 n h; omega
  | succ f ih =>
    intro fuel2 n h h2
    match fuel2 with
    | 0 => omega
    | f2 + 1 =>
      simp only [natDecimalCore]
      by_cases hn : n < 10
      · simp [hn]
      · have hd : n / 10 < f := by omega
        have hd2 : n / 10 < f2 := by omega
        simp only [hn, if_false]
        rw [ih f2 (n / 10) hd hd2]

lemma natDecimalCore_inj : ∀ fuel m n : Nat, m < fuel → n < fuel →
    natDecimalCore fuel m = natDecimalCore fuel n → m = n := by
  intro fuel
  induction fuel with
  | zero => intro m n h; omega
  | succ f ih =>
    intro m n hm hn h
    simp only [natDecimalCore] at h
    by_cases hm10 : m < 10 <;> by_cases hn10 : n < 10
    · simp only [hm10, hn10, if_true] at h
      exact digitChar_inj_lt m hm10 n hn10 (List.singleton_injective h)
    · exfalso
      simp only [hm10, hn10, if_true, if_false] at h
      have hf : 0 < f := by omega
      have hne := natDecimalCore_ne_nil f (n / 10) hf
      have hlen := congrArg List.length h
      simp only [List.length_append, List.length_singleton] at hlen
      have : (natDecimalCore f (n / 10)).length = 0 := by omega
      exact hne (List.length_eq_zero.mp this)
    · exfalso
      simp only [hm10, hn10, if_true, if_false] at h
      have hf : 0 < f := by omega
      have hne := natDecimalCore_ne_nil f (m / 10) hf
      have hlen := congrArg List.length h
      simp only [List.length_append, List.length_singleton] at hlen
      have : (natDecimalCore f (m / 10)).length = 0 := by omega
      exact hne (List.length_eq_zero.mp this)
    · simp only [hm10, hn10, if_false] at h
      have hlen : (natDecimalCore f (m / 10)).length = (natDecimalCore f (n / 10)).length := by
        have := congrArg List.length h
        simp only [List.length_append, List.length_singleton] at this
        omega
      obtain ⟨h1, h2⟩ := List.append_inj h hlen
      have hdiv : m / 10 = n / 10 :=
        ih (m / 10) (n / 10) (by omega) (by omega) h1
      have hmod : m % 10 = n % 10 := by
        have := List.singleton_injective h2
        exact digitChar_inj_lt (m % 10) (Nat.mod_lt m (by omega)) (n % 10)
          (Nat.mod_lt n (by omega)) this
      omega

lemma natDecimal_injective : Function.Injective natDecimal := by
  intro m n h
  have hdata : natDecimalCore (m + 1) m = natDecimalCore (n + 1) n := by
    simpa [natDecimal] using congrArg String.data h
  have hm : natDecimalCore (m + 1) m = natDecimalCore (m + n + 1) m :=
    natDecimalCore_fuel_irrel (m + 1) (m + n + 1) m (by omega) (by omega)
  have hn : natDecimalCore (n + 1) n = natDecimalCore (m + n + 1) n :=
    natDecimalCore_fuel_irrel (n + 1) (m + n + 1) n (by omega) (by omega)
  exact natDecimalCore_inj (m + n + 1) m n (by omega) (by omega) (hm ▸ hn ▸ hdata)

lemma anonName_injective : Function.Injective anonName := by
  intro m n h
  apply natDecimal_injective
  have hdata := congrArg String.data h
  simp only [anonName, HAppend.hAppend, Append.append, String.append] at hdata
  have h2 := List.append_cancel_left hdata
  cases hm : natDecimal m
  cases hn : natDecimal n
  rw [hm, hn] at h2
  simpa using congrArg String.mk h2

/-! ## Folding judgments into a model: helper lemmas -/

lemma objectDecls_cons_object (d : ObjectDecl) (rest : List ModelJudgment) :
    objectDecls (ModelJudgment.object d :: rest) = d :: objectDecls rest := by
  simp [objectDecls, List.filterMap_cons]

lemma objectDecls_cons_morphism (d : MorphismDecl) (rest : List ModelJudgment) :
    objectDecls (ModelJudgment.morphism d :: rest) = objectDecls rest := by
  simp [objectDecls, List.filterMap_cons]

lemma morphismDecls_cons_object (d : ObjectDecl) (rest : List ModelJudgment) :
    morphismDecls (ModelJudgment.object d :: rest) = morphismDecls rest := by
  simp [morphismDecls, List.filterMap_cons]

lemma morphismDecls_cons_morphism (d : MorphismDecl) (rest : List ModelJudgment) :
    morphismDecls (ModelJudgment.morphism d :: rest) = d :: morphismDecls rest := by
  simp [morphismDecls, List.filterMap_cons]

lemma foldl_addJudgment_eq (js : List ModelJudgment) : ∀ m : DblModel,
    js.foldl addJudgment m =
      { theory := m.theory, obs := m.obs ++ objectDecls js, mors := m.mors ++ morphismDecls js } := by
  induction js with
  | nil =>
    intro m
    simp [objectDecls, morphismDecls]
  | cons j rest ih =>
    intro m
    cases j with
    | object d =>
      rw [List.foldl_cons]
      show rest.foldl addJudgment (m.addOb d) = _
      rw [ih]
      simp [DblModel.addOb, objectDecls_cons_object, morphismDecls_cons_object, List.append_assoc]
    | morphism d =>
      rw [List.foldl_cons]
      show rest.foldl addJudgment (m.addMor d) = _
      rw [ih]
      simp [DblModel.addMor, objectDecls_cons_morphism, morphismDecls_cons_morphism,
        List.append_assoc]

lemma catlogModel_eq (theory : DblTheory) (js : List ModelJudgment) :
    catlogModel theory js =
      { theory := theory, obs := objectDecls js, mors := morphismDecls js } := by
  rw [catlogModel, foldl_addJudgment_eq]
  simp [DblModel.new]

lemma resolvesTo_subset {s1 s2 : List String} (hsub : ∀ x ∈ s1, x ∈ s2)
    (o : Option Ob) (h : resolvesTo s1 o = true) : resolvesTo s2 o = true := by
  cases o with
  | none => simp [resolvesTo] at h
  | some ob =>
    have hmem : ob.content ∈ s1 := by simpa [resolvesTo] using h
    simpa [resolvesTo] using hsub _ hmem

lemma resolvesSoFar_mor : ∀ (js : List ModelJudgment) (seen : List String),
    resolvesSoFar seen js = true →
    ∀ d ∈ morphismDecls js,
      resolvesTo (seen ++ objectIds js) d.dom = true ∧
      resolvesTo (seen ++ objectIds js) d.cod = true := by
  intro js
  induction js with
  | nil =>
    intro seen _ d hd
    simp [morphismDecls] at hd
  | cons j rest ih =>
    intro seen h d hd
    cases j with
    | object od =>
      simp only [resolvesSoFar] at h
      rw [morphismDecls_cons_object] at hd
      have hrec := ih (od.id :: seen) h d hd
      have hsub : ∀ x ∈ (od.id :: seen) ++ objectIds rest,
          x ∈ seen ++ objectIds (ModelJudgment.object od :: rest) := by
        intro x hx
        simp only [objectIds, objectDecls_cons_object, List.map_cons, List.mem_append,
          List.mem_cons] at hx ⊢
        tauto
      exact ⟨resolvesTo_subset hsub d.dom hrec.1, resolvesTo_subset hsub d.cod hrec.2⟩
    | morphism md =>
      simp only [resolvesSoFar, Bool.and_eq_true] at h
      obtain ⟨⟨hdom, hcod⟩, hrest⟩ := h
      rw [morphismDecls_cons_morphism] at hd
      have hobj : objectIds (ModelJudgment.morphism md :: rest) = objectIds rest := by
        simp [objectIds, objectDecls_cons_morphism]
      rcases List.mem_cons.mp hd with rfl | hd2
      · rw [hobj]
        have hsub : ∀ x ∈ seen, x ∈ seen ++ objectIds rest :=
          fun x hx => List.mem_append_left _ hx
        exact ⟨resolvesTo_subset hsub d.dom hdom, resolvesTo_subset hsub d.cod hcod⟩
      · rw [hobj]
        exact ih seen hrest d hd2

lemma morError_none (ids : List String) (mor : MorphismDecl)
    (hdom : resolvesTo ids mor.dom = true) (hcod : resolvesTo ids mor.cod = true) :
    morError ids mor = none := by
  simp [morError, hdom, hcod]

/-! ## Decapode building: helper lemmas -/

lemma add_to_pode_ob_shape (st : BuildState) (theory : Theory) (c : JsonCell)
    (st2 : BuildState) (h : add_to_pode_ob st theory c = .ok st2) :
    st2.pode.vars.map VarPart.name =
      st.pode.vars.map VarPart.name ++
        [if c.name == "" then anonName (st.nc + 1) else c.name] ∧
    st2.nc = (if c.name == "" then st.nc + 1 else st.nc) := by
  rw [add_to_pode_ob] at h
  cases hget : dictGet theory.data c.over with
  | none => rw [hget] at h; exact absurd h (by simp)
  | some theoryElem =>
    rw [hget] at h
    simp only [Except.ok.injEq] at h
    subst h
    by_cases hname : (c.name == "") = true <;>
      simp [hname, List.map_append]

lemma add_to_pode_hom_preserves (st : BuildState) (theory : Theory)
    (scalars : List (String × Int)) (c : JsonCell) (st2 : BuildState)
    (h : add_to_pode_hom st theory scalars c = .ok st2) :
    st2.pode.vars = st.pode.vars ∧ st2.nc = st.nc := by
  rw [add_to_pode_hom] at h
  by_cases hg : (dictHasKey st.vars c.dom && dictHasKey st.vars c.cod) = true
  · rw [if_pos hg] at h
    cases hget : dictGet theory.data c.over with
    | none => rw [hget] at h; exact absurd h (by simp)
    | some theoryElem =>
      rw [hget] at h
      simp only [Except.ok.injEq] at h
      subst h
      constructor
      · by_cases hop : (theoryElem.name == "∂ₜ") = true <;> simp [hop]
      · rfl
  · rw [if_neg hg] at h
    simp only [Except.ok.injEq] at h
    subst h
    exact ⟨rfl, rfl⟩

lemma decapodeFold_names (theory : Theory) (scalars : List (String × Int)) :
    ∀ (cells : List JsonCell) (st0 st : BuildState),
      cells.foldlM (decapodeStep theory scalars) st0 = .ok st →
      st.pode.vars.map VarPart.name =
        st0.pode.vars.map VarPart.name ++ specVarNames st0.nc cells := by
  intro cells
  induction cells with
  | nil =>
    intro st0 st h
    simp only [List.foldlM_nil, pure, Except.pure, Except.ok.injEq] at h
    subst h
    simp [specVarNames]
  | cons c cs ih =>
    intro st0 st h
    rw [List.foldlM_cons] at h
    cases hstep : decapodeStep theory scalars st0 c with
    | error e => rw [hstep] at h; simp [Bind.bind, Except.bind] at h
    | ok st1 =>
      rw [hstep] at h
      have hfold : cs.foldlM (decapodeStep theory scalars) st1 = .ok st := by
        simpa [Bind.bind, Except.bind] using h
      have hrest := ih st1 st hfold
      rw [decapodeStep] at hstep
      by_cases hobj : (c.tag == "object") = true
      · rw [if_pos hobj] at hstep
        obtain ⟨hnames, hnc⟩ := add_to_pode_ob_shape st0 theory c st1 hstep
        rw [hrest, hnames, hnc]
        by_cases hname : (c.name == "") = true
        · simp [specVarNames, hobj, hname, List.append_assoc]
        · simp [specVarNames, hobj, hname, List.append_assoc]
      · rw [if_neg hobj] at hstep
        by_cases hmor : (c.tag == "morphism") = true
        · rw [if_pos hmor] at hstep
          obtain ⟨hvars, hnc⟩ := add_to_pode_hom_preserves st0 theory scalars c st1 hstep
          rw [hrest, hvars, hnc]
          simp [specVarNames, hobj]
        · rw [if_neg hmor] at hstep
          exact absurd hstep (by simp)

lemma specAnonNames_anon : ∀ (cells : List JsonCell) (nc : Nat) (s : String),
    s ∈ specAnonNames nc cells → ∃ k, nc < k ∧ s = anonName k := by
  intro cells
  induction cells with
  | nil => intro nc s h; simp [specAnonNames] at h
  | cons c cs ih =>
    intro nc s h
    simp only [specAnonNames] at h
    by_cases hc : (c.tag == "object" && c.name == "") = true
    · rw [if_pos hc] at h
      rcases List.mem_cons.mp h with rfl | hmem
      · exact ⟨nc + 1, by omega, rfl⟩
      · obtain ⟨k, hk, he⟩ := ih (nc + 1) s hmem
        exact ⟨k, by omega, he⟩
    · rw [if_neg hc] at h
      exact ih nc s h

lemma specAnonNames_nodup : ∀ (cells : List JsonCell) (nc : Nat),
    (specAnonNames nc cells).Nodup := by
  intro cells
  induction cells with
  | nil => intro nc; simp [specAnonNames]
  | cons c cs ih =>
    intro nc
    simp only [specAnonNames]
    by_cases hc : (c.tag == "object" && c.name == "") = true
    · rw [if_pos hc]
      refine List.nodup_cons.mpr ⟨?_, ih (nc + 1)⟩
      intro hmem
      obtain ⟨k, hk, he⟩ := specAnonNames_anon cs (nc + 1) _ hmem
      have := anonName_injective he.symm
      omega
    · rw [if_neg hc]
      exact ih nc

/-! ## Theory building: helper lemmas -/

lemma theoryFold_tags : ∀ (cells : List JsonCell) (th0 th : Theory),
    cells.foldlM theoryStep th0 = .ok th →
    ∀ c ∈ cells, c.tag = "object" ∨ c.tag = "morphism" := by
  intro cells
  induction cells with
  | nil => intro th0 th _ c hc; simp at hc
  | cons c0 cs ih =>
    intro th0 th h c hc
    rw [List.foldlM_cons] at h
    cases hstep : theoryStep th0 c0 with
    | error e => rw [hstep] at h; simp [Bind.bind, Except.bind] at h
    | ok th1 =>
      rw [hstep] at h
      have hfold : cs.foldlM theoryStep th1 = .ok th := by
        simpa [Bind.bind, Except.bind] using h
      rcases List.mem_cons.mp hc with rfl | hmem
      · rw [theoryStep] at hstep
        by_cases hobj : (c.tag == "object") = true
        · exact Or.inl (eq_of_beq hobj)
        · rw [if_neg hobj] at hstep
          by_cases hmor : (c.tag == "morphism") = true
          · exact Or.inr (eq_of_beq hmor)
          · rw [if_neg hmor] at hstep
            exact absurd hstep (by simp)
      · exact ih th1 th hfold c hmem

/-! ## Claim theorems -/

/-- Claim C2: for every theory whose kind is not the single supported kind
`"Discrete"` and every list of judgments (including any non-empty list),
`validateModel` returns `undefined` (here `none`), not an `Ok` or `Err`
result. -/
theorem validateModel_unsupported_kind (theory : DblTheory)
    (judgments : List ModelJudgment) (h : theory.kind ≠ "Discrete") :
    validateModel theory judgments = none := by
  rw [validateModel, if_pos (bne_iff_ne.mpr h)]

theorem validateModel_unsupported_kind_witness :
    ({ kind := "NonDiscrete" } : DblTheory).kind ≠ "Discrete" ∧
    validateModel { kind := "NonDiscrete" }
      [ModelJudgment.object
        { id := "1", name := "x", obType := { tag := "Basic", content := "Object" } }] =
      none :=
  ⟨by decide, validateModel_unsupported_kind _ _ (by decide)⟩

/-- Claim C3: on a supported-kind theory, for every judgment sequence in which
every morphism's dom and cod resolve to a previously declared object,
`validateModel` returns `Ok` with a model containing exactly the declared
objects and morphisms in declaration order. -/
theorem validateModel_ok_of_ordered_resolution (theory : DblTheory)
    (judgments : List ModelJudgment) (hkind : theory.kind = "Discrete")
    (hres : resolvesSoFar [] judgments = true) :
    validateModel theory judgments =
      some { model := { theory := theory
                        obs := objectDecls judgments
                        mors := morphismDecls judgments }
             result := ModelValidationResult.ok } := by
  have herrs : (morphismDecls judgments).filterMap
      (morError ((objectDecls judgments).map ObjectDecl.id)) = [] := by
    apply List.filterMap_eq_nil_iff.mpr
    intro d hd
    have hres2 := resolvesSoFar_mor judgments [] hres d hd
    rw [List.nil_append] at hres2
    exact morError_none _ _ hres2.1 hres2.2
  have hcond : (theory.kind != "Discrete") = false := by simp [hkind]
  rw [validateModel, hcond]
  simp only [Bool.false_eq_true, if_false]
  rw [catlogModel_eq]
  simp only [DblModel.validate, herrs, List.isEmpty_nil]
  rfl

theorem validateModel_ok_of_ordered_resolution_witness :
    ({ kind := "Discrete" } : DblTheory).kind = "Discrete" ∧
    resolvesSoFar []
      [ModelJudgment.object
        { id := "1", name := "x", obType := { tag := "Basic", content := "Object" } },
       ModelJudgment.morphism
        { id := "2", name := "f", morType := { tag := "Hom", content := "Object" },
          dom := some { tag := "Basic", content := "1" },
          cod := some { tag := "Basic", content := "1" } }] = true ∧
    validateModel { kind := "Discrete" }
      [ModelJudgment.object
        { id := "1", name := "x", obType := { tag := "Basic", content := "Object" } },
       ModelJudgment.morphism
        { id := "2", name := "f", morType := { tag := "Hom", content := "Object" },
          dom := some { tag := "Basic", content := "1" },
          cod := some { tag := "Basic", content := "1" } }] =
      some { model := { theory := { kind := "Discrete" }
                        obs := objectDecls
                          [ModelJudgment.object
                            { id := "1", name := "x",
                              obType := { tag := "Basic", content := "Object" } },
                           ModelJudgment.morphism
                            { id := "2", name := "f",
                              morType := { tag := "Hom", content := "Object" },
                              dom := some { tag := "Basic", content := "1" },
                              cod := some { tag := "Basic", content := "1" } }]
                        mors := morphismDecls
                          [ModelJudgment.object
                            { id := "1", name := "x",
                              obType := { tag := "Basic", content := "Object" } },
                           ModelJudgment.morphism
                            { id := "2", name := "f",
                              morType := { tag := "Hom", content := "Object" },
                              dom := some { tag := "Basic", content := "1" },
                              cod := some { tag := "Basic", content := "1" } }] }
             result := ModelValidationResult.ok } :=
  ⟨rfl, by decide, validateModel_ok_of_ordered_resolution _ _ rfl (by decide)⟩

/-- Claim C7: `validateModel` is deterministic and idempotent in its
observable output: calling it twice on an unchanged judgment sequence yields
structurally identical results. -/
theorem validateModel_deterministic (theory : DblTheory)
    (js1 js2 : List ModelJudgment) (h : js1 = js2) :
    validateModel theory js1 = validateModel theory js2 := by
  rw [h]

theorem validateModel_deterministic_witness :
    validateModel { kind := "Discrete" }
      [ModelJudgment.object
        { id := "1", name := "x", obType := { tag := "Basic", content := "Object" } }] =
    validateModel { kind := "Discrete" }
      [ModelJudgment.object
        { id := "1", name := "x", obType := { tag := "Basic", content := "Object" } }] :=
  validateModel_deterministic _ _ _ rfl

/-- Claim C8: for every model ref id `r`, `newAnalysisDocument r` returns a
document with type `"analysis"`, an empty notebook, empty name, and a
`modelRef` equal to `{tag: "extern-ref", refId: r, taxon: "model"}`, matching
the declared `AnalysisDocument` wire shape. -/
theorem newAnalysisDocument_shape (r : String) :
    newAnalysisDocument r =
      { type := "analysis", name := "",
        modelRef := { tag := "extern-ref", refId := r, taxon := "model" },
        notebook := { cells := [] } } :=
  rfl

/-- Claim C4: when an `ExternRef` with taxon `"model"` resolves to a document
whose declared type is not `"model"`, the analysis page's resolution fails
with a `ReferenceError` — no `LiveAnalysisDoc` is constructed from that
document. -/
theorem analysisPageLoad_taxon_mismatch (refId : String)
    (analysisDoc modelDoc : RawDoc) (ha : analysisDoc.type = "analysis")
    (hm : modelDoc.type ≠ "model") :
    analysisPageLoad refId analysisDoc modelDoc =
      .error (.referenceError "model" modelDoc.type) := by
  have hca : (analysisDoc.type == "analysis") = true := beq_iff_eq.mpr ha
  have hcm : (modelDoc.type == "model") = false := by simp [hm]
  rw [analysisPageLoad, if_pos hca, enlivenModelDocument, hcm]
  simp

theorem analysisPageLoad_taxon_mismatch_witness :
    ({ type := "analysis", name := "A", modelRefId := "m" } : RawDoc).type = "analysis" ∧
    ({ type := "analysis", name := "Stored", modelRefId := "" } : RawDoc).type ≠ "model" ∧
    analysisPageLoad "r" { type := "analysis", name := "A", modelRefId := "m" }
      { type := "analysis", name := "Stored", modelRefId := "" } =
      .error (.referenceError "model" "analysis") :=
  ⟨rfl, by decide, analysisPageLoad_taxon_mismatch _ _ _ rfl (by decide)⟩

/-- Claim C5: whenever the embedded model's or diagram's validation result is
`Err` (not `"validated"`/`"Ok"`), the dependent computation short-circuits:
the analysis cell's `validatedModel` memo yields `null` (here `none`), and
`makeSimulationData` returns `undefined` (here `none`) instead of producing
simulation data. -/
theorem invalid_model_short_circuits :
    (∀ errors, validatedModelMemo (ValidationResult.invalid errors) = none) ∧
    (∀ (liveDiagram : LiveDiagramDocument) (content : DecapodesContent)
        (diag : CatlogDiagram) (errors : List String),
      liveDiagram.validatedDiagram =
        some { diagram := diag, result := DiagramValidationResult.err errors } →
      makeSimulationData liveDiagram content = none) ∧
    (∀ (liveDiagram : LiveDiagramDocument) (content : DecapodesContent),
      liveDiagram.validatedDiagram = none →
      makeSimulationData liveDiagram content = none) := by
  refine ⟨fun errors => rfl, ?_, ?_⟩
  · intro liveDiagram content diag errors hvd
    rw [makeSimulationData, hvd]
  · intro liveDiagram content hvd
    rw [makeSimulationData, hvd]

theorem invalid_model_short_circuits_witness :
    validatedModelMemo (ValidationResult.invalid []) = none ∧
    makeSimulationData
      { validatedDiagram :=
          some { diagram := { judgments := [] }, result := DiagramValidationResult.err [] }
        liveModelFormalJudgments := []
        objectIndexMap := fun _ => none }
      { baseUrl := none, token := none, scalars := [], plotVariables := [] } = none ∧
    makeSimulationData
      { validatedDiagram := none
        liveModelFormalJudgments := []
        objectIndexMap := fun _ => none }
      { baseUrl := none, token := none, scalars := [], plotVariables := [] } = none :=
  ⟨invalid_model_short_circuits.1 [],
   invalid_model_short_circuits.2.1
     { validatedDiagram :=
         some { diagram := { judgments := [] }, result := DiagramValidationResult.err [] }
       liveModelFormalJudgments := []
       objectIndexMap := fun _ => none }
     { baseUrl := none, token := none, scalars := [], plotVariables := [] }
     { judgments := [] } [] rfl,
   invalid_model_short_circuits.2.2
     { validatedDiagram := none
       liveModelFormalJudgments := []
       objectIndexMap := fun _ => none }
     { baseUrl := none, token := none, scalars := [], plotVariables := [] } rfl⟩

/-- Claim C6: a retrieved document whose type discriminator is missing or
unrecognized aborts the load with an explicit error, never a partial
interpretation: the analysis page load succeeds only when the document's type
is `"analysis"`, and the Julia `Theory` constructor succeeds only when every
cell's tag is `"object"` or `"morphism"` (anything else throws `ImplError`). -/
theorem unrecognized_discriminator_aborts :
    (∀ (refId : String) (analysisDoc modelDoc : RawDoc) (live : LiveAnalysisDoc),
      analysisPageLoad refId analysisDoc modelDoc = .ok live →
      analysisDoc.type = "analysis") ∧
    (∀ (cells : List JsonCell) (th : Theory),
      Theory.ofModel cells = .ok th →
      ∀ c ∈ cells, c.tag = "object" ∨ c.tag = "morphism") := by
  constructor
  · intro refId analysisDoc modelDoc live h
    by_cases ha : (analysisDoc.type == "analysis") = true
    · exact eq_of_beq ha
    · rw [analysisPageLoad, if_neg ha] at h
      exact absurd h (by simp)
  · intro cells th h
    exact theoryFold_tags cells { data := [] } th h

theorem unrecognized_discriminator_aborts_witness :
    analysisPageLoad "r" { type := "analysis", name := "A", modelRefId := "m" }
      { type := "model", name := "M", modelRefId := "" } =
      .ok { refId := "r"
            doc := { type := "analysis", name := "A", modelRefId := "m" }
            liveModel := { refId := "m"
                           doc := { type := "model", name := "M", modelRefId := "" } } } ∧
    ({ type := "analysis", name := "A", modelRefId := "m" } : RawDoc).type = "analysis" ∧
    Theory.ofModel
      [{ tag := "object", id := "i1", name := "0-form", over := "", dom := "", cod := "" }] =
      .ok { data := [("i1", { name := "Form0", val := none })] } ∧
    (∀ c ∈ [({ tag := "object", id := "i1", name := "0-form", over := "", dom := "",
               cod := "" } : JsonCell)],
      c.tag = "object" ∨ c.tag = "morphism") :=
  ⟨rfl,
   unrecognized_discriminator_aborts.1 "r"
     { type := "analysis", name := "A", modelRefId := "m" }
     { type := "model", name := "M", modelRefId := "" }
     { refId := "r", doc := { type := "analysis", name := "A", modelRefId := "m" },
       liveModel := { refId := "m", doc := { type := "model", name := "M", modelRefId := "" } } }
     rfl,
   rfl,
   unrecognized_discriminator_aborts.2
     [{ tag := "object", id := "i1", name := "0-form", over := "", dom := "", cod := "" }]
     { data := [("i1", { name := "Form0", val := none })] }
     rfl⟩

lemma routeMatches_pair (l pname : String)
    (filters : List (String × (String → Bool))) (path : List String)
    (h : routeMatches [RouteSegment.literal l, RouteSegment.param pname] filters path = true) :
    ∃ s, path = [l, s] ∧ segMatches filters (RouteSegment.param pname) s = true := by
  match path with
  | [] => simp [routeMatches] at h
  | [a] => simp [routeMatches] at h
  | a :: b :: c :: rest => simp [routeMatches] at h
  | [a, b] =>
    simp only [routeMatches, List.length_cons, List.length_nil, List.zip_cons_cons,
      List.zip_nil_right, List.all_cons, List.all_nil, Bool.and_eq_true, beq_self_eq_true,
      Bool.and_true, true_and] at h
    obtain ⟨h1, h2⟩ := h
    simp only [segMatches] at h1
    exact ⟨b, by rw [eq_of_beq h1], h2⟩

/-- Claim C9: a path matches one of the document routes `/model/:ref` and
`/analysis/:ref` only when its ref segment passes `uuidValidate`; any ref
parameter that is not a syntactically valid UUID matches no document
route. -/
theorem documentRoute_requires_uuid (path : List String)
    (h : documentRouteMatches path = true) :
    ∃ s, (path = ["model", s] ∨ path = ["analysis", s]) ∧ uuidValidate s = true := by
  rw [documentRouteMatches, Bool.or_eq_true] at h
  have hseg : ∀ s, segMatches refIsUUIDFilter (RouteSegment.param "ref") s = uuidValidate s :=
    fun s => rfl
  rcases h with h | h
  · obtain ⟨s, hpath, hm⟩ := routeMatches_pair "model" "ref" refIsUUIDFilter path h
    exact ⟨s, Or.inl hpath, by rw [← hseg]; exact hm⟩
  · obtain ⟨s, hpath, hm⟩ := routeMatches_pair "analysis" "ref" refIsUUIDFilter path h
    exact ⟨s, Or.inr hpath, by rw [← hseg]; exact hm⟩

theorem documentRoute_requires_uuid_witness :
    documentRouteMatches ["model", "00000000-0000-0000-0000-000000000000"] = true ∧
    ∃ s, (["model", "00000000-0000-0000-0000-000000000000"] = ["model", s] ∨
          ["model", "00000000-0000-0000-0000-000000000000"] = ["analysis", s]) ∧
      uuidValidate s = true :=
  ⟨by decide, documentRoute_requires_uuid _ (by decide)⟩

/-- Claim C1 (evaluation at the failing input): building the decapode from an
object `ob1` and a morphism `mor1` whose cod id `"ghost"` was never declared
succeeds with no error, and the built decapode contains no `Op1` row —
`add_to_pode!` silently dropped the morphism from the built model instead of
retaining it and reporting an `Err` naming `mor1`. -/
theorem add_to_pode_silent_drop :
    Decapode
      [{ tag := "object", id := "ob1", name := "u", over := "thOb", dom := "", cod := "" },
       { tag := "morphism", id := "mor1", name := "f", over := "thHom",
         dom := "ob1", cod := "ghost" }]
      { data := [("thOb", { name := "Form0", val := none }),
                 ("thHom", { name := "∂ₜ", val := some { dom := "thOb", cod := "thOb" } })] }
      [] =
      .ok { pode := { vars := [{ name := "u", type := "Form0" }], op1s := [], tvars := [] }
            vars := [("ob1", 1)], nc := 0, anons := [] } :=
  rfl

/-- Claim C10: whenever the `Decapode` builder succeeds, the variable names it
assigned are exactly those of `specVarNames`: an object judgment with an
empty name receives the fresh anonymous name `•n` obtained by incrementing
the counter while an object with a non-empty name keeps that name verbatim;
and the anonymous names so assigned (`specAnonNames`) are pairwise distinct,
so two distinct anonymous objects never receive the same name. -/
theorem decapode_fresh_anonymous_names (cells : List JsonCell) (theory : Theory)
    (scalars : List (String × Int)) (st : BuildState)
    (h : Decapode cells theory scalars = .ok st) :
    st.pode.vars.map VarPart.name = specVarNames 0 cells ∧
    (specAnonNames 0 cells).Nodup := by
  constructor
  · have hfold := decapodeFold_names theory scalars cells initBuildState st h
    simpa [initBuildState] using hfold
  · exact specAnonNames_nodup cells 0

theorem decapode_fresh_anonymous_names_witness :
    Decapode
      [{ tag := "object", id := "id1", name := "", over := "t1", dom := "", cod := "" },
       { tag := "object", id := "id2", name := "u", over := "t1", dom := "", cod := "" },
       { tag := "object", id := "id3", name := "", over := "t1", dom := "", cod := "" }]
      { data := [("t1", { name := "Form0", val := none })] } [] =
      .ok { pode := { vars := [{ name := anonName 1, type := "Form0" },
                              { name := "u", type := "Form0" },
                              { name := anonName 2, type := "Form0" }]
                      op1s := [], tvars := [] }
            vars := [("id3", 3), ("id2", 2), ("id1", 1)], nc := 2, anons := [] } ∧
    ({ pode := { vars := [{ name := anonName 1, type := "Form0" },
                          { name := "u", type := "Form0" },
                          { name := anonName 2, type := "Form0" }]
                 op1s := [], tvars := [] }
       vars := [("id3", 3), ("id2", 2), ("id1", 1)], nc := 2,
       anons := [] } : BuildState).pode.vars.map VarPart.name =
      specVarNames 0
        [{ tag := "object", id := "id1", name := "", over := "t1", dom := "", cod := "" },
         { tag := "object", id := "id2", name := "u", over := "t1", dom := "", cod := "" },
         { tag := "object", id := "id3", name := "", over := "t1", dom := "", cod := "" }] ∧
    (specAnonNames 0
        [{ tag := "object", id := "id1", name := "", over := "t1", dom := "", cod := "" },
         { tag := "object", id := "id2", name := "u", over := "t1", dom := "", cod := "" },
         { tag := "object", id := "id3", name := "", over := "t1", dom := "", cod := "" }]).Nodup :=
  ⟨rfl,
   (decapode_fresh_anonymous_names
     [{ tag := "object", id := "id1", name := "", over := "t1", dom := "", cod := "" },
      { tag := "object", id := "id2", name := "u", over := "t1", dom := "", cod := "" },
      { tag := "object", id := "id3", name := "", over := "t1", dom := "", cod := "" }]
     { data := [("t1", { name := "Form0", val := none })] } []
     { pode := { vars := [{ name := anonName 1, type := "Form0" },
                          { name := "u", type := "Form0" },
                          { name := anonName 2, type := "Form0" }]
                 op1s := [], tvars := [] }
       vars := [("id3", 3), ("id2", 2), ("id1", 1)], nc := 2, anons := [] }
     rfl).1,
   (decapode_fresh_anonymous_names
     [{ tag := "object", id := "id1", name := "", over := "t1", dom := "", cod := "" },
      { tag := "object", id := "id2", name := "u", over := "t1", dom := "", cod := "" },
      { tag := "object", id := "id3", name := "", over := "t1", dom := "", cod := "" }]
     { data := [("t1", { name := "Form0", val := none })] } []
     { pode := { vars := [{ name := anonName 1, type := "Form0" },
                          { name := "u", type := "Form0" },
                          { name := anonName 2, type := "Form0" }]
                 op1s := [], tvars := [] }
       vars := [("id3", 3), ("id2", 2), ("id1", 1)], nc := 2, anons := [] }
     rfl).2⟩
